import Mathlib

/-!
# Verification of the BLIP connection core (couchbase-lite-core)

Shallow embedding of the BLIP connection core:
`src/blip/BLIPConnection.cc` and `src/blip/MessageBuilder.cc`.
Machine integers are modelled as `Nat`; byte buffers as `List Nat`;
the actor's per-event handlers as pure state transitions.
-/

namespace Blip

/-! ## Protocol constants (BLIPConnection.cc lines 29-32; frame flag bits per
the BLIP frame format: bits 0-2 type, bit 3 Compressed, bit 4 Urgent,
bit 5 NoReply, bit 6 MoreComing). -/

def kDefaultFrameSize : Nat := 4096
def kBigFrameSize : Nat := 16384
def kMaxSendSize : Nat := 50 * 1024

def kRequestType : Nat := 0
def kResponseType : Nat := 1
def kErrorType : Nat := 2
def kAckRequestType : Nat := 4
def kAckResponseType : Nat := 5

def kTypeMask : Nat := 0x07
def kCompressed : Nat := 0x08
def kUrgent : Nat := 0x10
def kNoReply : Nat := 0x20
def kMoreComing : Nat := 0x40

/-- Modelled from the spec: the sender-side ACK threshold used by
`MessageOut::needsAck`/`receivedAck` (`MessageOut` source is not in the
repository snapshot; §4.3 of the spec gives the contract, with 50 KiB as
the reference byte threshold). -/
def kAckThreshold : Nat := 50 * 1024

/-! ## MessageOut

An outgoing message (class `MessageOut`, declared in `BLIPInternal.hh`,
used by `BLIPConnection.cc`).  `mid` models C++ pointer identity of the
heap-allocated object (assigned at `_queueMessage` time by the model,
mirroring allocation order); `number` is `_number`; `flags` the static
frame-flag byte; `body` the serialized output buffer; `bytesSent` is
`_bytesSent`; `bytesAcked` the cumulative acknowledged byte count. -/

structure MessageOut where
  mid : Nat := 0
  number : Nat := 0
  flags : Nat := 0
  body : List Nat := []
  bytesSent : Nat := 0
  bytesAcked : Nat := 0
deriving Repr, DecidableEq, Inhabited

namespace MessageOut

/-- Models `MessageOut::urgent()`: tests the Urgent bit of the flags byte. -/
def urgent (m : MessageOut) : Bool := m.flags &&& kUrgent != 0

/-- Models `MessageOut::type()`: the low three bits of the flags byte. -/
def typ (m : MessageOut) : Nat := m.flags &&& kTypeMask

/-- Models `MessageOut::isAck()`: type is AckRequest or AckResponse. -/
def isAck (m : MessageOut) : Bool :=
  m.typ == kAckRequestType || m.typ == kAckResponseType

/-- Models `MessageOut::isResponse()`: type is not Request. -/
def isResponse (m : MessageOut) : Bool := m.typ != kRequestType

/-- Models `MessageOut::noReply()`: tests the NoReply bit. -/
def noReply (m : MessageOut) : Bool := m.flags &&& kNoReply != 0

/-- Modelled from the spec: `MessageOut::nextFrameToSend(maxBytes, flags)`
(§4.3; `MessageOut` source is not in the repository snapshot): "returns
the next slice of the serialized body (at most `maxBytes`), setting flags
from the message's static flags plus MoreComing iff bytes remain".
Returns the payload, the frame-flag byte, and the updated message. -/
def nextFrameToSend (m : MessageOut) (maxBytes : Nat) :
    List Nat × Nat × MessageOut :=
  let payload := (m.body.drop m.bytesSent).take maxBytes
  let m' := { m with bytesSent := m.bytesSent + payload.length }
  let flags :=
    if m'.bytesSent < m.body.length then m.flags ||| kMoreComing else m.flags
  (payload, flags, m')

/-- Modelled from the spec: `MessageOut::needsAck()` (§4.3;
`MessageOut` source is not in the repository snapshot): true while too
many bytes are outstanding without a matching ACK; cleared when
`sent - acked < kAckThreshold`. -/
def needsAck (m : MessageOut) : Bool :=
  kAckThreshold ≤ m.bytesSent - m.bytesAcked

/-- Modelled from the spec: `MessageOut::receivedAck(byteCount)` (§4.3;
`MessageOut` source is not in the repository snapshot): "records
cumulative bytes the peer has acknowledged". -/
def receivedAck (m : MessageOut) (byteCount : Nat) : MessageOut :=
  { m with bytesAcked := max m.bytesAcked byteCount }

end MessageOut

/-! ## Outbox insertion (`BLIPIO::requeue`, BLIPConnection.cc lines 194-217)

The C++ walks an iterator `i` backward from `_outbox.end()`:

    auto i = _outbox.end();
    if (msg->urgent() && !_outbox.empty()) {
        do {
            --i;
            if ((*i)->urgent()) {
                if ((i+1) != _outbox.end())
                    ++i;
                break;
            } else if (msg->_bytesSent == 0 && (*i)->_bytesSent == 0) {
                break;
            }
        } while (i != _outbox.begin());
        ++i;
    }
    _outbox.emplace(i, msg);

`requeueScan q c i` runs the do-while body with the iterator at offset
`i` (about to be pre-decremented), returning the final insertion index
(after the trailing `++i`). -/

def requeueScan (q : List MessageOut) (c : MessageOut) : Nat → Nat
  | 0 => 1
  | j + 1 =>
    let m := q.getD j default
    if m.urgent then
      if j + 1 ≠ q.length then j + 2 else j + 1
    else if c.bytesSent = 0 ∧ m.bytesSent = 0 then
      j + 1
    else
      requeueScan q c j

/-- Models `BLIPIO::requeue`: inserts message `c` into outbox `q` at the position
computed by the backward scan (urgent messages), or at the tail. -/
def requeue (q : List MessageOut) (c : MessageOut) : List MessageOut :=
  if c.urgent ∧ q ≠ [] then
    let i := requeueScan q c q.length
    q.take i ++ c :: q.drop i
  else
    q ++ [c]

/-- The condition under which `requeue`'s backward scan stops at index
`j` of the queue: the message there is urgent, or both it and the
candidate have sent no bytes yet. -/
def stopCond (q : List MessageOut) (c : MessageOut) (j : Nat) : Prop :=
  (q.getD j default).urgent = true ∨
    (c.bytesSent = 0 ∧ (q.getD j default).bytesSent = 0)

instance (q : List MessageOut) (c : MessageOut) (j : Nat) :
    Decidable (stopCond q c j) := by
  unfold stopCond; infer_instance

/-! ## MessageIn and the incoming-request ledger
(`BLIPIO::pendingRequest`, BLIPConnection.cc lines 384-403)

`_pendingRequests` (a `std::unordered_map<MessageNo, Retained<MessageIn>>`)
is modelled as an association list keyed by message number. -/

structure MessageIn where
  number : Nat := 0
  flags : Nat := 0
deriving Repr, DecidableEq, Inhabited

namespace MessageIn

/-- Models `MessageIn::urgent()`: tests the Urgent bit of the flags byte. -/
def urgent (m : MessageIn) : Bool := m.flags &&& kUrgent != 0

/-- Models `MessageIn::isResponse()`: type is not Request. -/
def isResponse (m : MessageIn) : Bool := m.flags &&& kTypeMask != kRequestType

end MessageIn

/-- The incoming-request part of BLIPIO's state: `_pendingRequests` and
`_numRequestsReceived`. -/
structure InState where
  pendingRequests : List (Nat × MessageIn) := []
  numRequestsReceived : Nat := 0
deriving Repr, DecidableEq, Inhabited

/-- Models `BLIPIO::pendingRequest(msgNo, flags)`: returns the `MessageIn` for an
incoming request frame (and the updated state), or `none` when the frame
is dropped with a warning.  An existing entry is returned (and erased on
the final frame); a new `MessageIn` is created iff
`msgNo == _numRequestsReceived + 1` (and recorded iff MoreComing). -/
def pendingRequest (st : InState) (msgNo flags : Nat) :
    Option MessageIn × InState :=
  match st.pendingRequests.lookup msgNo with
  | some m =>
    if flags &&& kMoreComing = 0 then
      (some m, { st with
        pendingRequests := st.pendingRequests.eraseP (fun kv => kv.1 == msgNo) })
    else
      (some m, st)
  | none =>
    if msgNo = st.numRequestsReceived + 1 then
      let msg : MessageIn := { number := msgNo, flags := flags }
      let st' := { st with numRequestsReceived := st.numRequestsReceived + 1 }
      if flags &&& kMoreComing ≠ 0 then
        (some msg, { st' with pendingRequests := (msgNo, msg) :: st.pendingRequests })
      else
        (some msg, st')
    else
      (none, st)

/-- Runs `pendingRequest` over a sequence of incoming request frames
(each a `(msgNo, flags)` pair), collecting the message numbers for which
a new `MessageIn` was created (detected by the counter increment). -/
def runRequests : InState → List (Nat × Nat) → InState × List Nat
  | st, [] => (st, [])
  | st, (msgNo, flags) :: evs =>
    let r := pendingRequest st msgNo flags
    let rest := runRequests r.2 evs
    (rest.1,
      (if r.2.numRequestsReceived = st.numRequestsReceived then [] else [msgNo])
        ++ rest.2)

/-! ## Request handlers
(`BLIPIO::_setRequestHandler` lines 421-426, `BLIPIO::handleRequest`
lines 429-445)

A C++ `Connection::RequestHandler` (a `std::function`) is modelled as an
opaque identifier `hid` plus a `throws` flag saying whether invoking it
throws an exception. -/

structure HandlerImpl where
  hid : Nat := 0
  throws : Bool := false
deriving Repr, DecidableEq, Inhabited

/-- Models `BLIPIO::_setRequestHandler(profile, handler)`: a non-null handler is
`emplace`d (inserted only when the key is absent — `std::unordered_map::
emplace` never overwrites); a null handler (`none`) erases the entry. -/
def setRequestHandler (hs : List (String × HandlerImpl)) (profile : String)
    (handler : Option HandlerImpl) : List (String × HandlerImpl) :=
  match handler with
  | some h =>
    match hs.lookup profile with
    | some _ => hs
    | none => (profile, h) :: hs
  | none => hs.eraseP (fun kv => kv.1 == profile)

/-- Which of the two possible callees `handleRequest` invoked. -/
inductive Callee where
  | handler (hid : Nat)
  | delegate
deriving Repr, DecidableEq

/-- Models `BLIPIO::handleRequest(request)`: looks up the request's `Profile`
property; if a handler is registered under it, invokes it, otherwise
forwards to `delegate().onRequestReceived`.  The whole body is inside a
try/catch: an exception from the callee is answered by
`request->respondWithError("BLIP", 501)`.  Returns the list of callees
invoked (in order) and the error response sent, if any (as a
domain/code pair). -/
def handleRequest (hs : List (String × HandlerImpl)) (profile : Option String)
    (delegateThrows : Bool) : List Callee × Option (String × Nat) :=
  match profile with
  | some p =>
    match hs.lookup p with
    | some h =>
      if h.throws then ([Callee.handler h.hid], some ("BLIP", 501))
      else ([Callee.handler h.hid], none)
    | none =>
      if delegateThrows then ([Callee.delegate], some ("BLIP", 501))
      else ([Callee.delegate], none)
  | none =>
    if delegateThrows then ([Callee.delegate], some ("BLIP", 501))
    else ([Callee.delegate], none)

/-! ## MessageBuilder (MessageBuilder.cc)

The predefined tokenizable property strings (`kSpecialProperties`,
lines 23-41), as UTF-8 byte lists.  The C++ array is terminated by
`nullslice`; the Lean list holds exactly the 14 real entries. -/

private def strBytes (s : String) : List Nat := s.data.map Char.toNat

def kSpecialProperties : List (List Nat) :=
  [strBytes "Profile",
   strBytes "Error-Code",
   strBytes "Error-Domain",
   strBytes "Content-Type",
   strBytes "application/json",
   strBytes "application/octet-stream",
   strBytes "text/plain; charset=UTF-8",
   strBytes "text/xml",
   strBytes "Accept",
   strBytes "Cache-Control",
   strBytes "must-revalidate",
   strBytes "If-Match",
   strBytes "If-None-Match",
   strBytes "Location"]

/-- Models `MessageBuilder::tokenizeProperty(property)`: index+1 of the first
matching entry of `kSpecialProperties`, or 0 when none matches. -/
def tokenizeProperty (property : List Nat) : Nat :=
  match kSpecialProperties.indexOf? property with
  | some i => i + 1
  | none => 0

/-- Models `MessageBuilder::writeTokenizedString(out, str)`: a tokenizable string
is emitted as the two bytes `{token, 0}`; any other string is emitted
literally followed by a NUL byte. -/
def writeTokenizedString (str : List Nat) : List Nat :=
  let token := tokenizeProperty str
  if token ≠ 0 then [token, 0] else str ++ [0]

/-- The serialized properties region (excluding the uvarint length
prefix) of a property list: `MessageBuilder::addProperty(name, value)`
writes the tokenized name then the tokenized value, for each pair in
order. -/
def propertiesRegion (props : List (List Nat × List Nat)) : List Nat :=
  (props.map (fun p => writeTokenizedString p.1 ++ writeTokenizedString p.2)).flatten

/-- The individual strings (names and values, interleaved in emission
order) of a property list. -/
def propertyStrings (props : List (List Nat × List Nat)) : List (List Nat) :=
  (props.map (fun p => [p.1, p.2])).flatten

/-- Models `MessageBuilder::extractOutput()` (lines 155-180), for a message whose
serialized form is `propsRegion ++ body` where `propsRegion` is the
`_propertiesLength`-byte prefix (uvarint length prefix plus properties)
and `body` the body region.  The gzip compressor (zlibcomplete, an
external collaborator) is passed in as a function returning the stream
chunk and the finish chunk.  Returns the output buffer and the final
value of the `compressed` flag. -/
def extractOutput (gzip : List Nat → List Nat × List Nat)
    (propsRegion body : List Nat) (compressed : Bool) : List Nat × Bool :=
  let output := propsRegion ++ body
  if compressed then
    if output.length > propsRegion.length then
      let z := gzip body
      if z.1.length + z.2.length < output.length - propsRegion.length then
        (propsRegion ++ z.1 ++ z.2, true)
      else
        (output, false)
    else
      (output, false)
  else
    (output, compressed)

/-- The mutable fields of a `MessageBuilder` that determine the built
message's flags (MessageBuilder.hh; defaults as re-established by
`MessageBuilder::reset()`, with `type` defaulting to Request — cf. the
assertion `message->type() == kRequestType` in `Connection::sendRequest`). -/
structure MessageBuilder where
  typ : Nat := kRequestType
  urgent : Bool := false
  compressed : Bool := false
  noreply : Bool := false
deriving Repr, DecidableEq, Inhabited

/-- Models `MessageBuilder::MessageBuilder(MessageIn *inReplyTo)` (lines 54-60):
delegates to the default constructor, then sets `type = kResponseType`
and `urgent = inReplyTo->urgent()`.  (The C++ asserts
`!inReplyTo->isResponse()`.) -/
def MessageBuilder.mkReply (inReplyTo : MessageIn) : MessageBuilder :=
  { typ := kResponseType, urgent := inReplyTo.urgent }

/-- Models `MessageBuilder::flags()` (lines 86-92): the type bits plus the
Urgent, Compressed and NoReply bits per the corresponding fields. -/
def MessageBuilder.flags (b : MessageBuilder) : Nat :=
  (b.typ &&& kTypeMask)
    ||| (if b.urgent then kUrgent else 0)
    ||| (if b.compressed then kCompressed else 0)
    ||| (if b.noreply then kNoReply else 0)

/-! ## Frames and varints (fleece `PutUVarInt`/`ReadUVarInt`) -/

/-- Unsigned LEB128 varint encoding (`PutUVarInt`): little-endian 7-bit
groups, continuation bit on every byte but the last. -/
def uvarint (n : Nat) : List Nat :=
  if h : n < 128 then [n] else (n % 128 + 128) :: uvarint (n / 128)
decreasing_by exact Nat.div_lt_self (by omega) (by omega)

/-- Unsigned LEB128 varint decoding (`ReadUVarInt`), on the prefix of a
byte list; `none` when the bytes are exhausted mid-number. -/
def readUVarInt : List Nat → Option Nat
  | [] => none
  | b :: rest =>
    if b < 128 then some b
    else
      match readUVarInt rest with
      | some v => some (b % 128 + 128 * v)
      | none => none

/-- One outbound BLIP frame as handed to `WebSocket::send`:
`uvarint(msgNo) || uvarint(flags) || payload`. -/
structure Frame where
  msgNo : Nat
  flags : Nat
  payload : List Nat
deriving Repr, DecidableEq, Inhabited

/-- The frame's wire bytes (BLIPConnection.cc lines 276-281). -/
def frameBytes (f : Frame) : List Nat :=
  uvarint f.msgNo ++ uvarint f.flags ++ f.payload

/-! ## The write loop (`BLIPIO::writeToWebSocket`, lines 247-306) -/

/-- The frame-size choice (lines 261-263): `kBigFrameSize` when the popped
message is urgent, or the (remaining) outbox is empty, or the next queued
message is non-urgent; else `kDefaultFrameSize`. -/
def frameMaxSize (msg : MessageOut) (outbox : List MessageOut) : Nat :=
  if msg.urgent || outbox.isEmpty || !(outbox.headD default).urgent then
    kBigFrameSize
  else
    kDefaultFrameSize

/-- One iteration of the write loop's frame production (lines 258-281):
pops `msg` with remaining outbox `rest`, asks it for its next payload
slice with budget `frameMaxSize - 10` (ten bytes are reserved for the two
header varints), and forms the frame. -/
def produceFrame (msg : MessageOut) (rest : List MessageOut) :
    Frame × MessageOut :=
  let r := msg.nextFrameToSend (frameMaxSize msg rest - 10)
  ({ msgNo := msg.number, flags := r.2.1, payload := r.1 }, r.2.2)

/-- Result of a `writeToWebSocket` run: the final outbox, icebox and
`_sentBytes`, plus the frames passed to `WebSocket::send` in order. -/
structure WriteResult where
  outbox : List MessageOut
  icebox : List MessageOut
  sentBytes : Nat
  frames : List Frame
deriving Repr, DecidableEq, Inhabited

/-- Models `BLIPIO::writeToWebSocket`: while `_sentBytes < kMaxSendSize` and the
outbox is non-empty, pop the head message, send its next frame, and
either freeze it (MoreComing and `needsAck`), re-insert it per `requeue`
(MoreComing), or retire it (final frame). -/
def writeLoop (outbox icebox : List MessageOut) (sentBytes : Nat) :
    WriteResult :=
  if h : sentBytes < kMaxSendSize then
    match outbox with
    | [] => ⟨[], icebox, sentBytes, []⟩
    | msg :: rest =>
      let pf := produceFrame msg rest
      let next :=
        if pf.1.flags &&& kMoreComing ≠ 0 then
          if pf.2.needsAck then (rest, icebox ++ [pf.2])
          else (requeue rest pf.2, icebox)
        else (rest, icebox)
      let r := writeLoop next.1 next.2 (sentBytes + (frameBytes pf.1).length)
      ⟨r.outbox, r.icebox, r.sentBytes, pf.1 :: r.frames⟩
  else ⟨outbox, icebox, sentBytes, []⟩
termination_by kMaxSendSize - sentBytes
decreasing_by
  have hu : ∀ x : Nat, uvarint x ≠ [] := by
    intro x
    unfold uvarint
    split <;> simp
  have hlen : 0 < (frameBytes (produceFrame msg rest).1).length := by
    have := hu (produceFrame msg rest).1.msgNo
    simp only [frameBytes, List.length_append]
    cases hc : uvarint (produceFrame msg rest).1.msgNo with
    | nil => exact absurd hc this
    | cons a l => simp
  unfold kMaxSendSize at h ⊢
  omega

/-! ## The BLIPIO actor

State owned by the actor that the outbound claims depend on.
`webSocketOpen` models `_webSocket != nullptr`; `connected` models
`_connection != nullptr`; `nextMid` models the allocator (each message
queued gets a fresh pointer identity). -/

structure BLIPState where
  webSocketOpen : Bool := true
  connected : Bool := true
  outbox : List MessageOut := []
  icebox : List MessageOut := []
  sentBytes : Nat := 0
  lastMessageNo : Nat := 0
  nextMid : Nat := 0
deriving Repr, DecidableEq, Inhabited

/-- The events processed by the actor's mailbox that touch the outbound
path: `_queueMessage`, `_close`, `_closed` (the WebSocket's close
notification), `_onWebSocketWriteable`, and an incoming ACK frame
(`receivedAck`, dispatched from `_onWebSocketMessage`). -/
inductive Event where
  | queueMessage (msg : MessageOut)
  | close
  | closed
  | writeable
  | ackReceived (msgNo : Nat) (onResponse : Bool) (body : List Nat)
deriving Repr, DecidableEq

/-- Models `MessageQueue::findMessage(msgNo, isResponse)` (lines 48-53). -/
def findMessage (q : List MessageOut) (msgNo : Nat) (isResponse : Bool) :
    Option MessageOut :=
  q.find? (fun m => m.number == msgNo && m.isResponse == isResponse)

/-- Models `BLIPIO::_queueMessage(msg)` (lines 178-190): dropped with a log line
when the socket is gone; else the message (freshly constructed, so with
zero progress counters and a fresh identity) gets a number if it has
none, is inserted per `requeue`, and the write loop runs
(`requeue(msg, true)`). -/
def stepQueueMessage (st : BLIPState) (msg : MessageOut) :
    BLIPState × List Frame :=
  if !st.webSocketOpen then
    (st, [])
  else
    let fresh := { msg with mid := st.nextMid, bytesSent := 0, bytesAcked := 0 }
    let assigned :=
      if fresh.number = 0 then
        ({ fresh with number := st.lastMessageNo + 1 }, st.lastMessageNo + 1)
      else
        (fresh, st.lastMessageNo)
    let r := writeLoop (requeue st.outbox assigned.1) st.icebox st.sentBytes
    ({ st with outbox := r.outbox, icebox := r.icebox,
               sentBytes := r.sentBytes, lastMessageNo := assigned.2,
               nextMid := st.nextMid + 1 },
     r.frames)

/-- Models `BLIPIO::_close` (lines 152-155): calls `_webSocket->close()` when the
socket is still set.  No BLIPIO state changes and no frame is sent. -/
def stepClose (st : BLIPState) : BLIPState × List Frame :=
  (st, [])

/-- Models `BLIPIO::_closed(status)` (lines 157-170): nulls `_webSocket`; on the
first close notification also clears the queues (and the pending maps and
handler table, modelled elsewhere) and nulls `_connection`. -/
def stepClosed (st : BLIPState) : BLIPState × List Frame :=
  let st1 := { st with webSocketOpen := false }
  if st1.connected then
    ({ st1 with connected := false, outbox := [], icebox := [] }, [])
  else
    (st1, [])

/-- Models `BLIPIO::_onWebSocketWriteable` (lines 239-243): resets `_sentBytes`
and runs the write loop. -/
def stepWriteable (st : BLIPState) : BLIPState × List Frame :=
  let r := writeLoop st.outbox st.icebox 0
  ({ st with outbox := r.outbox, icebox := r.icebox,
             sentBytes := r.sentBytes },
   r.frames)

/-- Models `BLIPIO::receivedAck(msgNo, onResponse, body)` (lines 358-381): finds
the `MessageOut` in the outbox or (frozen) in the icebox, parses the
cumulative byte count, records it in place, and thaws the message (erase
from icebox, `requeue(msg, true)`) when it was frozen and no longer needs
an ACK.  In-place pointer mutation is modelled by mapping over the
message's identity (unique by the disjointness invariant). -/
def stepAck (st : BLIPState) (msgNo : Nat) (onResponse : Bool)
    (body : List Nat) : BLIPState × List Frame :=
  match findMessage st.outbox msgNo onResponse with
  | some m =>
    match readUVarInt body with
    | none => (st, [])
    | some byteCount =>
      let m' := m.receivedAck byteCount
      ({ st with outbox := st.outbox.map (fun x => if x.mid = m.mid then m' else x) },
       [])
  | none =>
    match findMessage st.icebox msgNo onResponse with
    | none => (st, [])
    | some m =>
      match readUVarInt body with
      | none => (st, [])
      | some byteCount =>
        let m' := m.receivedAck byteCount
        if m'.needsAck then
          ({ st with icebox := st.icebox.map (fun x => if x.mid = m.mid then m' else x) },
           [])
        else
          let ib := st.icebox.eraseP (fun x => x.mid == m.mid)
          let r := writeLoop (requeue st.outbox m') ib st.sentBytes
          ({ st with outbox := r.outbox, icebox := r.icebox,
                     sentBytes := r.sentBytes },
           r.frames)

/-- One mailbox event. -/
def step (st : BLIPState) : Event → BLIPState × List Frame
  | .queueMessage msg => stepQueueMessage st msg
  | .close => stepClose st
  | .closed => stepClosed st
  | .writeable => stepWriteable st
  | .ackReceived msgNo onResponse body => stepAck st msgNo onResponse body

/-- Processes a list of mailbox events in order, concatenating the frames
sent to the WebSocket. -/
def run (st : BLIPState) : List Event → BLIPState × List Frame
  | [] => (st, [])
  | e :: es =>
    let r := step st e
    let rest := run r.1 es
    (rest.1, r.2 ++ rest.2)

/-- The state of a freshly constructed `BLIPIO` (live socket, live
connection, empty queues). -/
def initialState : BLIPState := {}

/-- The identities (modelled pointer values) of the messages of a queue. -/
def mids (l : List MessageOut) : List Nat := l.map MessageOut.mid

/-- The incoming-request state of a freshly constructed `BLIPIO`
(empty `_pendingRequests`, `_numRequestsReceived == 0`). -/
def initialInState : InState := {}

/-! # Theorems -/

/-! ## Helper lemmas -/

theorem writeTokenizedString_of_mem {s : List Nat}
    (h : s ∈ kSpecialProperties) :
    ∃ t, 0 < t ∧ writeTokenizedString s = [t, 0] := by
  have hne : kSpecialProperties.indexOf? s ≠ none := by
    intro hnone
    have := List.indexOf?_eq_none_iff.mp hnone s h
    simp at this
  obtain ⟨i, hi⟩ := Option.ne_none_iff_exists'.mp hne
  refine ⟨i + 1, by omega, ?_⟩
  simp [writeTokenizedString, tokenizeProperty, hi]

theorem lookup_eq_none_of_not_mem_keys {β : Type} {t : List (String × β)}
    {p : String} (h : p ∉ t.map Prod.fst) : t.lookup p = none := by
  induction t with
  | nil => rfl
  | cons kv t ih =>
    obtain ⟨k, v⟩ := kv
    simp only [List.map_cons, List.mem_cons] at h
    push_neg at h
    have hpk : (p == k) = false := by simpa [beq_eq_false_iff_ne] using h.1
    simp only [List.lookup, hpk]
    exact ih h.2

theorem lookup_eraseP_eq_none {β : Type} {t : List (String × β)} {p : String}
    (hnd : (t.map Prod.fst).Nodup) :
    (t.eraseP (fun kv => kv.1 == p)).lookup p = none := by
  induction t with
  | nil => rfl
  | cons kv t ih =>
    obtain ⟨k, v⟩ := kv
    rw [List.map_cons, List.nodup_cons] at hnd
    rw [List.eraseP_cons]
    by_cases hk : k = p
    · have hbe : ((k, v).1 == p) = true := by simpa using hk
      simp only [hbe, cond_true]
      exact lookup_eq_none_of_not_mem_keys (hk ▸ hnd.1)
    · have hbe : ((k, v).1 == p) = false := by simpa [beq_eq_false_iff_ne] using hk
      have hpk : (p == k) = false := by
        simpa [beq_eq_false_iff_ne] using Ne.symm hk
      simp only [hbe, cond_false]
      simp only [List.lookup, hpk]
      exact ih hnd.2

theorem requeueScan_eq_one_of_no_stop (q : List MessageOut) (c : MessageOut) :
    ∀ i, (∀ k, k < i → ¬stopCond q c k) → requeueScan q c i = 1 := by
  intro i
  induction i with
  | zero => intro _; rfl
  | succ j ih =>
    intro hno
    have hs := hno j (by omega)
    have hu : ¬((q.getD j default).urgent = true) := fun h => hs (Or.inl h)
    have ht : ¬(c.bytesSent = 0 ∧ (q.getD j default).bytesSent = 0) :=
      fun h => hs (Or.inr h)
    simp only [requeueScan]
    rw [if_neg hu, if_neg ht]
    exact ih (fun k hk => hno k (by omega))

theorem requeueScan_eq_of_stop (q : List MessageOut) (c : MessageOut)
    (j : Nat) (hstop : stopCond q c j) :
    ∀ i, j < i → (∀ k, j < k → k < i → ¬stopCond q c k) →
      requeueScan q c i =
        if (q.getD j default).urgent = true
        then (if j + 1 = q.length then j + 1 else j + 2)
        else j + 1 := by
  intro i
  induction i with
  | zero => intro h; omega
  | succ n ih =>
    intro hji hno
    by_cases hjn : j = n
    · subst hjn
      simp only [requeueScan]
      by_cases hu : (q.getD j default).urgent = true
      · rw [if_pos hu, if_pos hu]
        by_cases hl : j + 1 = q.length
        · rw [if_neg (by omega), if_pos hl]
        · rw [if_pos hl, if_neg hl]
      · have htie : c.bytesSent = 0 ∧ (q.getD j default).bytesSent = 0 := by
          rcases hstop with h | h
          · exact absurd h hu
          · exact h
        rw [if_neg hu, if_pos htie, if_neg hu]
    · have hjn' : j < n := by omega
      have hs := hno n (by omega) (by omega)
      have hu : ¬((q.getD n default).urgent = true) := fun h => hs (Or.inl h)
      have ht : ¬(c.bytesSent = 0 ∧ (q.getD n default).bytesSent = 0) :=
        fun h => hs (Or.inr h)
      simp only [requeueScan]
      rw [if_neg hu, if_neg ht]
      exact ih hjn' (fun k hk1 hk2 => hno k hk1 (by omega))

theorem pendingRequest_counter_cases (st : InState) (msgNo flags : Nat) :
    (pendingRequest st msgNo flags).2.numRequestsReceived =
        st.numRequestsReceived ∨
    ((pendingRequest st msgNo flags).2.numRequestsReceived =
        st.numRequestsReceived + 1 ∧ msgNo = st.numRequestsReceived + 1) := by
  unfold pendingRequest
  cases hl : st.pendingRequests.lookup msgNo with
  | some m =>
    by_cases hmc : flags &&& kMoreComing = 0 <;> simp [hmc]
  | none =>
    by_cases heq : msgNo = st.numRequestsReceived + 1
    · by_cases hmc : flags &&& kMoreComing ≠ 0 <;> simp [heq, hmc]
    · simp [heq]

theorem runRequests_mono (evs : List (Nat × Nat)) :
    ∀ st : InState, st.numRequestsReceived ≤
      (runRequests st evs).1.numRequestsReceived := by
  induction evs with
  | nil => intro st; simp [runRequests]
  | cons ev evs ih =>
    intro st
    obtain ⟨msgNo, flags⟩ := ev
    have h := ih (pendingRequest st msgNo flags).2
    rcases pendingRequest_counter_cases st msgNo flags with hc | ⟨hc, _⟩ <;>
      simp only [runRequests] <;> omega

theorem runRequests_created_range (evs : List (Nat × Nat)) :
    ∀ st : InState,
      (runRequests st evs).2 =
        List.range' (st.numRequestsReceived + 1)
          ((runRequests st evs).1.numRequestsReceived -
            st.numRequestsReceived) := by
  induction evs with
  | nil => intro st; simp [runRequests]
  | cons ev evs ih =>
    intro st
    obtain ⟨msgNo, flags⟩ := ev
    have hmono := runRequests_mono evs (pendingRequest st msgNo flags).2
    have ihst := ih (pendingRequest st msgNo flags).2
    rcases pendingRequest_counter_cases st msgNo flags with hc | ⟨hc, heq⟩
    · simp only [runRequests, hc, if_pos rfl, List.nil_append]
      rw [ihst, hc]
      simp
    · subst heq
      have hne : (pendingRequest st (st.numRequestsReceived + 1)
          flags).2.numRequestsReceived ≠ st.numRequestsReceived := by omega
      simp only [runRequests, if_neg hne]
      rw [ihst, hc]
      have hsub : (runRequests (pendingRequest st (st.numRequestsReceived + 1)
            flags).2 evs).1.numRequestsReceived - st.numRequestsReceived =
          ((runRequests (pendingRequest st (st.numRequestsReceived + 1)
            flags).2 evs).1.numRequestsReceived -
            (st.numRequestsReceived + 1)) + 1 := by
        omega
      rw [hsub, List.range'_succ]
      simp

/-! ## C2: pendingRequest accepts exactly the gapless sequence 1,2,3,… -/

/-- C2: for every incoming frame of Request type, `pendingRequest`
returns the existing partially-received `MessageIn` when one is pending
under that number (leaving `_numRequestsReceived` unchanged), creates a
new `MessageIn` iff `msgNo == _numRequestsReceived + 1`, and otherwise
warns and drops the frame, leaving `_numRequestsReceived` and
`_pendingRequests` (the whole state) unchanged; consequently, over any
sequence of incoming request frames from the initial state, the numbers
of the newly created (accepted) requests form the gapless,
duplicate-free sequence 1, 2, 3, …. -/
theorem c2_pendingRequest_gapless (st : InState) (msgNo flags : Nat) :
    (∀ m, st.pendingRequests.lookup msgNo = some m →
      (pendingRequest st msgNo flags).1 = some m ∧
      (pendingRequest st msgNo flags).2.numRequestsReceived =
        st.numRequestsReceived) ∧
    (st.pendingRequests.lookup msgNo = none →
      (msgNo = st.numRequestsReceived + 1 →
        (pendingRequest st msgNo flags).1 =
          some { number := msgNo, flags := flags } ∧
        (pendingRequest st msgNo flags).2.numRequestsReceived =
          st.numRequestsReceived + 1) ∧
      (msgNo ≠ st.numRequestsReceived + 1 →
        pendingRequest st msgNo flags = (none, st))) ∧
    (∀ evs : List (Nat × Nat),
      (runRequests initialInState evs).2 =
        List.range' 1 (runRequests initialInState evs).1.numRequestsReceived) := by
  refine ⟨?_, ?_, ?_⟩
  · intro m hm
    by_cases hmc : flags &&& kMoreComing = 0 <;>
      simp [pendingRequest, hm, hmc]
  · intro hl
    constructor
    · intro heq
      subst heq
      by_cases hmc : flags &&& kMoreComing ≠ 0 <;>
        simp [pendingRequest, hl, hmc]
    · intro hne
      simp [pendingRequest, hl, hne]
  · intro evs
    have := runRequests_created_range evs initialInState
    simpa [initialInState] using this

/-- Witness for C2 at a concrete input: in the initial state, request
number 1 (single-frame) is accepted and the counter becomes 1. -/
theorem c2_witness :
    (initialInState.pendingRequests.lookup 1 = none ∧
      (1 : Nat) = initialInState.numRequestsReceived + 1) ∧
    ((pendingRequest initialInState 1 0).1 =
      some { number := 1, flags := 0 } ∧
      (pendingRequest initialInState 1 0).2.numRequestsReceived =
        initialInState.numRequestsReceived + 1) :=
  ⟨⟨rfl, rfl⟩,
    ((c2_pendingRequest_gapless initialInState 1 0).2.1 rfl).1 rfl⟩

/-! ## C1: outbox insertion policy -/

/-- C1 counterexample: outbox `[U, N1, N2]` with `U` urgent and
partially sent, `N1` non-urgent and partially sent, `N2` non-urgent with
`bytesSent == 0`; the candidate is urgent with `bytesSent == 0`.  The
code appends the candidate at the tail — *after* `N2`, the non-urgent
message with `bytesSent == 0` at which the scan stops — whereas the
claim places the candidate *before* it (at the position
`[U, N1, C, N2]`, which is also where the "after the last urgent
message, leaving one non-urgent in between" rule alone would put it). -/
theorem c1_counterexample :
    requeue
        [{ mid := 0, flags := 16, bytesSent := 1 },
         { mid := 1, flags := 0, bytesSent := 1 },
         { mid := 2, flags := 0, bytesSent := 0 }]
        { mid := 3, flags := 16, bytesSent := 0 } =
      [{ mid := 0, flags := 16, bytesSent := 1 },
       { mid := 1, flags := 0, bytesSent := 1 },
       { mid := 2, flags := 0, bytesSent := 0 },
       { mid := 3, flags := 16, bytesSent := 0 }] ∧
    ([{ mid := 0, flags := 16, bytesSent := 1 },
      { mid := 1, flags := 0, bytesSent := 1 },
      { mid := 2, flags := 0, bytesSent := 0 },
      { mid := 3, flags := 16, bytesSent := 0 }] :
        List MessageOut) ≠
      [{ mid := 0, flags := 16, bytesSent := 1 },
       { mid := 1, flags := 0, bytesSent := 1 },
       { mid := 3, flags := 16, bytesSent := 0 },
       { mid := 2, flags := 0, bytesSent := 0 }] := by
  constructor
  · decide
  · decide

/-- C1 amended: a non-urgent message (or any message entering an empty
outbox) is appended at the tail.  An urgent candidate is inserted
according to the backward scan from the tail: with `j` the *last* index
at which the scan stops (`stopCond`: an urgent message, or — when the
candidate has `bytesSent == 0` — a non-urgent message with
`bytesSent == 0`), the candidate is inserted after the urgent message at
`j` leaving one non-urgent message in between when one follows it, and —
the amendment — immediately *after* (not before) a non-urgent stop
message, preserving chronological order of first frames; when the scan
never stops, the candidate is inserted at index 1, just behind the
head. -/
theorem c1_requeue_amended (q : List MessageOut) (c : MessageOut) :
    (¬(c.urgent = true ∧ q ≠ []) → requeue q c = q ++ [c]) ∧
    (c.urgent = true → q ≠ [] →
      ((∀ j, j < q.length → ¬stopCond q c j) →
        requeue q c = q.take 1 ++ c :: q.drop 1) ∧
      (∀ j, j < q.length → stopCond q c j →
        (∀ k, j < k → k < q.length → ¬stopCond q c k) →
        requeue q c =
          if (q.getD j default).urgent = true
          then q.take (j + 2) ++ c :: q.drop (j + 2)
          else q.take (j + 1) ++ c :: q.drop (j + 1))) := by
  constructor
  · intro h
    rw [requeue, if_neg (by simpa using h)]
  · intro hc hq
    constructor
    · intro hno
      have hscan : requeueScan q c q.length = 1 :=
        requeueScan_eq_one_of_no_stop q c q.length (fun k hk => hno k hk)
      rw [requeue, if_pos ⟨hc, hq⟩]
      simp only [hscan]
    · intro j hj hstop hno
      have hscan := requeueScan_eq_of_stop q c j hstop q.length hj hno
      rw [requeue, if_pos ⟨hc, hq⟩]
      simp only [hscan]
      by_cases hu : (q.getD j default).urgent = true
      · rw [if_pos hu, if_pos hu]
        by_cases hl : j + 1 = q.length
        · rw [if_pos hl]
          rw [List.take_of_length_le (by omega),
            List.take_of_length_le (by omega),
            List.drop_eq_nil_of_le (by omega),
            List.drop_eq_nil_of_le (by omega)]
        · rw [if_neg hl]
      · rw [if_neg hu, if_neg hu]

/-- Witness for C1 (amended) at a concrete input: a single non-urgent
queued message with `bytesSent == 0` and an urgent candidate with
`bytesSent == 0`; the scan stops at index 0 (tie) and the candidate is
inserted immediately after it. -/
theorem c1_witness :
    (({ mid := 3, flags := 16 } : MessageOut).urgent = true) ∧
    ([({ mid := 0, flags := 0 } : MessageOut)] ≠ []) ∧
    (0 < ([({ mid := 0, flags := 0 } : MessageOut)]).length ∧
      stopCond [{ mid := 0, flags := 0 }] { mid := 3, flags := 16 } 0) ∧
    requeue [{ mid := 0, flags := 0 }] { mid := 3, flags := 16 } =
      (if (([({ mid := 0, flags := 0 } : MessageOut)]).getD 0
            default).urgent = true
       then ([({ mid := 0, flags := 0 } : MessageOut)]).take 2 ++
         { mid := 3, flags := 16 } :: ([({ mid := 0, flags := 0 } :
           MessageOut)]).drop 2
       else ([({ mid := 0, flags := 0 } : MessageOut)]).take 1 ++
         { mid := 3, flags := 16 } :: ([({ mid := 0, flags := 0 } :
           MessageOut)]).drop 1) :=
  ⟨by decide, by decide, ⟨by decide, by decide⟩,
    ((c1_requeue_amended [{ mid := 0, flags := 0 }]
        { mid := 3, flags := 16 }).2 (by decide) (by decide)).2 0
      (by decide) (by decide)
      (by intro k hk1 hk2
          simp only [List.length_cons, List.length_nil] at hk2
          omega)⟩

/-! ## C3: handleRequest invokes exactly one callee; a throwing callee is
answered with a BLIP/501 error -/

/-- C3: for every fully received incoming request, `handleRequest` invokes
exactly one of (a) the handler registered under the request's `Profile`
property or (b) `delegate.onRequestReceived`, never both; and if the
invoked handler throws, the exception is caught and the request is
answered with an Error-type response with domain "BLIP" and code 501. -/
theorem c3_handleRequest_exactly_one (hs : List (String × HandlerImpl))
    (profile : Option String) (dt : Bool) :
    (handleRequest hs profile dt).1.length = 1 ∧
    (∀ p h, profile = some p → hs.lookup p = some h →
      (handleRequest hs profile dt).1 = [Callee.handler h.hid] ∧
      (handleRequest hs profile dt).2 =
        (if h.throws then some ("BLIP", 501) else none)) ∧
    ((profile = none ∨ ∃ p, profile = some p ∧ hs.lookup p = none) →
      (handleRequest hs profile dt).1 = [Callee.delegate] ∧
      (handleRequest hs profile dt).2 =
        (if dt then some ("BLIP", 501) else none)) := by
  refine ⟨?_, ?_, ?_⟩
  · cases profile with
    | none => cases dt <;> simp [handleRequest]
    | some p =>
      cases hl : hs.lookup p with
      | none => cases dt <;> simp [handleRequest, hl]
      | some h => cases ht : h.throws <;> simp [handleRequest, hl, ht]
  · rintro p h rfl hl
    cases ht : h.throws <;> simp [handleRequest, hl, ht]
  · rintro (rfl | ⟨p, rfl, hl⟩)
    · cases dt <;> simp [handleRequest]
    · cases dt <;> simp [handleRequest, hl]

/-- Witness for C3 at a concrete input: one registered handler under
profile "echo" that throws; the handler (and only it) is invoked and the
generated error is BLIP/501. -/
theorem c3_witness :
    (Option.some "echo" = some "echo" ∧
      ([("echo", ({ hid := 3, throws := true } : HandlerImpl))].lookup "echo" =
        some { hid := 3, throws := true })) ∧
    ((handleRequest [("echo", { hid := 3, throws := true })]
        (some "echo") false).1 = [Callee.handler 3] ∧
      (handleRequest [("echo", { hid := 3, throws := true })]
        (some "echo") false).2 =
        (if ({ hid := 3, throws := true } : HandlerImpl).throws
         then some ("BLIP", 501) else none)) :=
  ⟨⟨rfl, by decide⟩,
    (c3_handleRequest_exactly_one [("echo", { hid := 3, throws := true })]
      (some "echo") false).2.1 "echo" { hid := 3, throws := true } rfl
      (by decide)⟩

/-! ## C6: setRequestHandler -/

/-- C6 counterexample: `_setRequestHandler` uses
`std::unordered_map::emplace`, which does not overwrite an existing
entry.  After registering handler 0 under "echo" and then handler 1
under "echo", the registered handler is still handler 0, not handler 1 —
refuting "registration installs the given handler, replacing any
previous registration". -/
theorem c6_counterexample :
    (setRequestHandler
        (setRequestHandler [] "echo" (some { hid := 0, throws := false }))
        "echo" (some { hid := 1, throws := false })).lookup "echo" =
      some { hid := 0, throws := false } ∧
    some ({ hid := 0, throws := false } : HandlerImpl) ≠
      some { hid := 1, throws := false } := by
  constructor
  · decide
  · decide

/-- C6 amended: for a handler table with (as for `std::unordered_map`)
no duplicate keys — after `setRequestHandler(p, h)` with a non-null
handler `h`, `h` is registered for `p` iff no handler was registered for
`p` before (`emplace` does not overwrite: an existing registration is
kept unchanged); after `setRequestHandler(p, null)`, no handler is
registered for `p`. -/
theorem c6_setRequestHandler_amended (hs : List (String × HandlerImpl))
    (p : String) (h : HandlerImpl) (hnd : (hs.map Prod.fst).Nodup) :
    (hs.lookup p = none →
      (setRequestHandler hs p (some h)).lookup p = some h) ∧
    (∀ h0, hs.lookup p = some h0 →
      (setRequestHandler hs p (some h)).lookup p = some h0) ∧
    (setRequestHandler hs p none).lookup p = none := by
  refine ⟨?_, ?_, ?_⟩
  · intro hl
    simp [setRequestHandler, hl, List.lookup]
  · intro h0 hl
    simp [setRequestHandler, hl]
  · exact lookup_eraseP_eq_none hnd

/-- Witness for C6 (amended) at a concrete input: registering handler 7
under "echo" in an empty table installs it. -/
theorem c6_witness :
    (([] : List (String × HandlerImpl)).map Prod.fst).Nodup ∧
    (setRequestHandler [] "echo" (some { hid := 7, throws := false })).lookup
        "echo" = some { hid := 7, throws := false } :=
  ⟨by decide,
    (c6_setRequestHandler_amended [] "echo" { hid := 7, throws := false }
      (by decide)).1 rfl⟩

/-! ## C7: extractOutput adopts the compressed body iff strictly shorter -/

/-- C7: for every message built with the compressed flag set,
`extractOutput` leaves the Compressed flag set iff the gzip output
(stream chunk plus finish chunk) is strictly shorter than the
uncompressed body region; otherwise the body ships uncompressed with the
flag cleared; in both cases the length prefix and properties region
bytes (the `_propertiesLength`-byte prefix) are identical to the
uncompressed serialization. -/
theorem c7_extractOutput_compressed (gzip : List Nat → List Nat × List Nat)
    (props body : List Nat) :
    ((extractOutput gzip props body true).2 = true ↔
      (gzip body).1.length + (gzip body).2.length < body.length) ∧
    (extractOutput gzip props body true).1 =
      props ++ (if (gzip body).1.length + (gzip body).2.length < body.length
                then (gzip body).1 ++ (gzip body).2
                else body) := by
  by_cases hb : 0 < body.length
  · have hlen : (props ++ body).length > props.length := by
      simp only [List.length_append]; omega
    by_cases hz : (gzip body).1.length + (gzip body).2.length < body.length
    · have hz' : (gzip body).1.length + (gzip body).2.length <
          (props ++ body).length - props.length := by
        simp only [List.length_append]; omega
      simp [extractOutput, hlen, hz', hz, hb]
    · have hz' : ¬((gzip body).1.length + (gzip body).2.length <
          (props ++ body).length - props.length) := by
        simp only [List.length_append]; omega
      simp [extractOutput, hlen, hz', hz, hb]
  · have hempty : body = [] := List.length_eq_zero.mp (by omega)
    subst hempty
    simp [extractOutput]

/-! ## C8: tokenized property serialization -/

/-- C8: a property string that exactly equals the table entry at index
`i` is emitted by `writeTokenizedString` as exactly the two bytes
`{i+1, 0}`; any other string is emitted literally followed by a NUL
byte; consequently, for a property list whose names and values are all
tokenizable, the serialized properties region (excluding the uvarint
length prefix) is exactly two bytes per tokenized string — `2·|P|` bytes
for the `|P|` strings (names and values) of the list, i.e. four bytes
per name/value pair. -/
theorem c8_tokenized_serialization :
    (∀ i (hi : i < kSpecialProperties.length),
      writeTokenizedString (kSpecialProperties.get ⟨i, hi⟩) = [i + 1, 0]) ∧
    (∀ s, s ∉ kSpecialProperties → writeTokenizedString s = s ++ [0]) ∧
    (∀ props : List (List Nat × List Nat),
      (∀ s ∈ propertyStrings props, s ∈ kSpecialProperties) →
      (propertiesRegion props).length = 2 * (propertyStrings props).length) := by
  refine ⟨?_, ?_, ?_⟩
  · intro i hi
    have h14 : kSpecialProperties.length = 14 := rfl
    rw [h14] at hi
    interval_cases i <;> rfl
  · intro s hs
    have hnone : kSpecialProperties.indexOf? s = none := by
      rw [List.indexOf?_eq_none_iff]
      intro x hx
      simp only [beq_iff_eq]
      rintro rfl
      exact hs hx
    simp [writeTokenizedString, tokenizeProperty, hnone]
  · intro props hall
    induction props with
    | nil => simp [propertiesRegion, propertyStrings]
    | cons pr ps ih =>
      have hn : pr.1 ∈ kSpecialProperties :=
        hall pr.1 (by simp [propertyStrings])
      have hv : pr.2 ∈ kSpecialProperties :=
        hall pr.2 (by simp [propertyStrings])
      obtain ⟨t1, _, e1⟩ := writeTokenizedString_of_mem hn
      obtain ⟨t2, _, e2⟩ := writeTokenizedString_of_mem hv
      have ih' := ih (fun s hs => hall s (by
        simp only [propertyStrings, List.map_cons, List.flatten_cons,
          List.mem_append] at hs ⊢
        tauto))
      have hpr : propertiesRegion (pr :: ps) =
          (writeTokenizedString pr.1 ++ writeTokenizedString pr.2) ++
            propertiesRegion ps := by
        simp [propertiesRegion]
      have hps : propertyStrings (pr :: ps) =
          pr.1 :: pr.2 :: propertyStrings ps := by
        simp [propertyStrings]
      rw [hpr, hps]
      simp only [List.length_append, List.length_cons, e1, e2,
        List.length_nil, ih']
      omega

/-- Witness for C8 at concrete inputs: "Profile" (table index 0) is
emitted as `{1, 0}`; and the two-pair property list
(Profile, application/json), (Error-Domain, Error-Code) — all four
strings tokenizable — serializes to 8 = 2·4 bytes. -/
theorem c8_witness :
    (writeTokenizedString (kSpecialProperties.get ⟨0, by decide⟩) = [1, 0]) ∧
    ((∀ s ∈ propertyStrings
        [(strBytes "Profile", strBytes "application/json"),
         (strBytes "Error-Domain", strBytes "Error-Code")],
        s ∈ kSpecialProperties) ∧
      (propertiesRegion
        [(strBytes "Profile", strBytes "application/json"),
         (strBytes "Error-Domain", strBytes "Error-Code")]).length =
        2 * (propertyStrings
          [(strBytes "Profile", strBytes "application/json"),
           (strBytes "Error-Domain", strBytes "Error-Code")]).length) :=
  ⟨c8_tokenized_serialization.1 0 (by decide),
    by decide,
    c8_tokenized_serialization.2.2 _ (by decide)⟩

/-! ## C5: frame sizes chosen by the write loop -/

theorem produceFrame_payload_length (msg : MessageOut)
    (rest : List MessageOut) :
    (produceFrame msg rest).1.payload.length =
      min (if msg.urgent = true ∨ rest = [] ∨
            (rest.headD default).urgent = false
           then 16374 else 4086)
        (msg.body.length - msg.bytesSent) := by
  have hcond : ((msg.urgent || rest.isEmpty ||
      !(rest.headD default).urgent) = true) ↔
      (msg.urgent = true ∨ rest = [] ∨
        (rest.headD default).urgent = false) := by
    simp [List.isEmpty_iff, or_assoc]
  have hpay : (produceFrame msg rest).1.payload =
      (msg.body.drop msg.bytesSent).take (frameMaxSize msg rest - 10) := rfl
  rw [hpay, List.length_take, List.length_drop]
  congr 1
  by_cases h : msg.urgent = true ∨ rest = [] ∨
      (rest.headD default).urgent = false
  · rw [if_pos h]
    unfold frameMaxSize
    rw [if_pos (hcond.mpr h)]
    decide
  · rw [if_neg h]
    unfold frameMaxSize
    rw [if_neg (fun hbt => h (hcond.mp hbt))]
    decide

theorem writeLoop_frames_bound (ob ib : List MessageOut) (s : Nat) :
    ((writeLoop ob ib s).frames.all
      (fun f => f.payload.length ≤ 16374)) = true := by
  induction ob, ib, s using writeLoop.induct with
  | case1 ib s hs =>
    unfold writeLoop
    rw [dif_pos hs]
    rfl
  | case2 ib s hs msg rest pf next ih =>
    have hle : (produceFrame msg rest).1.payload.length ≤ 16374 := by
      rw [produceFrame_payload_length]
      by_cases h : msg.urgent = true ∨ rest = [] ∨
          (rest.headD default).urgent = false
      · rw [if_pos h]
        exact Nat.min_le_left _ _
      · rw [if_neg h]
        exact le_trans (Nat.min_le_left _ _) (by omega)
    unfold writeLoop
    rw [dif_pos hs]
    simp only [List.all_cons, Bool.and_eq_true, decide_eq_true_eq]
    exact ⟨hle, ih⟩
  | case3 ob ib s hs =>
    unfold writeLoop
    rw [dif_neg hs]
    rfl

/-- C5 counterexample: an urgent message with 20000 bytes of body still
to send, popped with an empty remaining outbox, gets the enlarged frame
size — yet its payload carries 16374 bytes, not 16384: the write loop
passes `maxSize - 10` (header allowance) to `nextFrameToSend`, so a
16384-byte payload is never produced. -/
theorem c5_counterexample :
    (produceFrame
        { number := 1, flags := 16, body := List.replicate 20000 0 }
        []).1.payload.length = 16374 ∧
    (16374 : Nat) ≠ 16384 := by
  constructor
  · rw [produceFrame_payload_length]
    rw [if_pos (Or.inr (Or.inl rfl))]
    have hlen : ({ number := 1, flags := 16, body := List.replicate 20000 0 } : MessageOut).body.length = 20000 :=
      List.length_replicate 20000 0
    have hsent : ({ number := 1, flags := 16, body := List.replicate 20000 0 } : MessageOut).bytesSent = 0 :=
      rfl
    rw [hlen, hsent]
    omega
  · decide

/-- C5 (amended): for every frame produced by the write loop, the
payload contains `min(16384 - 10, remaining bytes)` bytes when the
popped message is urgent, or the outbox is empty, or the next queued
message is non-urgent, and `min(4096 - 10, remaining bytes)` bytes
otherwise: ten bytes of the frame-size budget are reserved for the two
header varints, so payloads never exceed 16374 (resp. 4086) bytes. -/
theorem c5_frame_payload_size (msg : MessageOut) (rest : List MessageOut) :
    ((produceFrame msg rest).1.payload.length =
      min (if msg.urgent = true ∨ rest = [] ∨
            (rest.headD default).urgent = false
           then 16374 else 4086)
        (msg.body.length - msg.bytesSent)) ∧
    (∀ ob ib s, ((writeLoop ob ib s).frames.all
        (fun f => f.payload.length ≤ 16374)) = true) :=
  ⟨produceFrame_payload_length msg rest,
    fun ob ib s => writeLoop_frames_bound ob ib s⟩

/-! ## C4: outbound frames after close -/

theorem writeLoop_nil (ib : List MessageOut) (s : Nat) :
    writeLoop [] ib s = ⟨[], ib, s, []⟩ := by
  unfold writeLoop
  split <;> rfl

theorem step_closed_state (st : BLIPState) (e : Event)
    (hws : st.webSocketOpen = false) (hob : st.outbox = [])
    (hib : st.icebox = []) :
    (step st e).2 = [] ∧ (step st e).1.webSocketOpen = false ∧
      (step st e).1.outbox = [] ∧ (step st e).1.icebox = [] := by
  cases e with
  | queueMessage m =>
    simp [step, stepQueueMessage, hws, hob, hib]
  | close =>
    exact ⟨rfl, hws, hob, hib⟩
  | closed =>
    simp only [step, stepClosed]
    split <;> simp [hob, hib]
  | writeable =>
    simp [step, stepWriteable, hws, hob, hib, writeLoop_nil]
  | ackReceived msgNo onResponse body =>
    simp [step, stepAck, hws, hob, hib, findMessage]

theorem run_closed_state (post : List Event) : ∀ st : BLIPState,
    st.webSocketOpen = false → st.outbox = [] → st.icebox = [] →
    (run st post).2 = [] ∧ (run st post).1.webSocketOpen = false ∧
      (run st post).1.outbox = [] ∧ (run st post).1.icebox = [] := by
  induction post with
  | nil =>
    intro st h1 h2 h3
    exact ⟨rfl, h1, h2, h3⟩
  | cons e es ih =>
    intro st h1 h2 h3
    obtain ⟨hf, hw, ho, hi⟩ := step_closed_state st e h1 h2 h3
    obtain ⟨hf', hw', ho', hi'⟩ := ih (step st e).1 hw ho hi
    simp only [run]
    refine ⟨?_, hw', ho', hi'⟩
    simp [hf, hf']

theorem step_connected (st : BLIPState) (e : Event) :
    (step st e).1.connected = st.connected ∨ e = Event.closed := by
  cases e with
  | closed => exact Or.inr rfl
  | close => exact Or.inl rfl
  | writeable => exact Or.inl rfl
  | queueMessage m =>
    left
    simp only [step, stepQueueMessage]
    split <;> rfl
  | ackReceived msgNo onResponse body =>
    left
    simp only [step, stepAck]
    split
    · split <;> rfl
    · split
      · rfl
      · split
        · rfl
        · split <;> rfl

theorem stepClosed_fields (st : BLIPState)
    (h : st.connected = false →
      st.webSocketOpen = false ∧ st.outbox = [] ∧ st.icebox = []) :
    (step st Event.closed).1.webSocketOpen = false ∧
    (step st Event.closed).1.outbox = [] ∧
    (step st Event.closed).1.icebox = [] := by
  simp only [step, stepClosed]
  by_cases hcon : st.connected = true
  · simp [hcon]
  · have hfields := h (by simpa using hcon)
    simp [hcon, hfields.2.1, hfields.2.2]

theorem ginv_step (st : BLIPState) (e : Event)
    (h : st.connected = false →
      st.webSocketOpen = false ∧ st.outbox = [] ∧ st.icebox = []) :
    (step st e).1.connected = false →
      (step st e).1.webSocketOpen = false ∧ (step st e).1.outbox = [] ∧
        (step st e).1.icebox = [] := by
  intro hc
  rcases step_connected st e with hconn | hcl
  · rw [hconn] at hc
    have hst := h hc
    obtain ⟨_, hw, ho, hi⟩ := step_closed_state st e hst.1 hst.2.1 hst.2.2
    exact ⟨hw, ho, hi⟩
  · subst hcl
    exact stepClosed_fields st h

theorem ginv_run (events : List Event) : ∀ st : BLIPState,
    (st.connected = false →
      st.webSocketOpen = false ∧ st.outbox = [] ∧ st.icebox = []) →
    ((run st events).1.connected = false →
      (run st events).1.webSocketOpen = false ∧
        (run st events).1.outbox = [] ∧ (run st events).1.icebox = []) := by
  induction events with
  | nil => intro st h; exact h
  | cons e es ih =>
    intro st h
    simp only [run]
    exact ih (step st e).1 (ginv_step st e h)

/-- C4 counterexample: processing `_close` only asks the WebSocket to
close; `_webSocket` is still set until the close notification
(`_closed`) arrives.  A `queueMessage` processed right after `_close`
is therefore *not* dropped: it is assigned number 1, queued, and its
frame is written to the WebSocket. -/
theorem c4_counterexample :
    (step (step initialState Event.close).1
        (Event.queueMessage { flags := 0, body := [65] })).2 =
      [{ msgNo := 1, flags := 0, payload := [65] }] := by
  simp [step, stepClose, stepQueueMessage, initialState, requeue, writeLoop,
    produceFrame, frameMaxSize, MessageOut.nextFrameToSend,
    MessageOut.needsAck, MessageOut.urgent, frameBytes, uvarint,
    kMaxSendSize, kBigFrameSize, kMoreComing, kUrgent, kAckThreshold]

/-- C4 (amended): after the *WebSocket close notification*
(`onWebSocketClose` / `_closed`) has been processed by the BLIPIO actor,
no further outbound frames are produced: any subsequently processed
`queueMessage` is logged and dropped without queuing (the state is
unchanged and no frame is emitted), and `writeToWebSocket` emits no
frame to the WebSocket, whatever events follow.  (After `_close` alone
the socket pointer is still set, so sending continues until the close
notification arrives — see the counterexample.) -/
theorem c4_no_frames_after_closed (pre post : List Event) :
    (run (step (run initialState pre).1 Event.closed).1 post).2 = [] ∧
    (∀ m, step (run (step (run initialState pre).1 Event.closed).1
        post).1 (Event.queueMessage m) =
      ((run (step (run initialState pre).1 Event.closed).1 post).1,
        [])) := by
  have hg := ginv_run pre initialState (by
    intro h
    simp [initialState] at h)
  have hcl := stepClosed_fields (run initialState pre).1 hg
  obtain ⟨hf, hw, ho, hi⟩ :=
    run_closed_state post _ hcl.1 hcl.2.1 hcl.2.2
  refine ⟨hf, ?_⟩
  intro m
  simp only [step] at hw
  simp [step, stepQueueMessage, hw]

/-! ## C9: outbox/icebox disjointness -/

theorem requeue_perm (q : List MessageOut) (c : MessageOut) :
    (requeue q c).Perm (c :: q) := by
  unfold requeue
  split
  · have h := @List.perm_middle _ c
      (q.take (requeueScan q c q.length))
      (q.drop (requeueScan q c q.length))
    rwa [List.take_append_drop] at h
  · exact List.perm_append_singleton c q

theorem mids_append (l1 l2 : List MessageOut) :
    mids (l1 ++ l2) = mids l1 ++ mids l2 := by
  simp [mids]

theorem mids_cons (m : MessageOut) (l : List MessageOut) :
    mids (m :: l) = m.mid :: mids l := rfl

theorem produceFrame_mid (msg : MessageOut) (rest : List MessageOut) :
    (produceFrame msg rest).2.mid = msg.mid := rfl

theorem receivedAck_mid (m : MessageOut) (b : Nat) :
    (m.receivedAck b).mid = m.mid := rfl

theorem nodup_shuffle_freeze {A B : List Nat} {v : Nat}
    (hnd : (v :: (A ++ B)).Nodup) :
    (A ++ (B ++ [v])).Nodup ∧ (A ++ (B ++ [v])) ⊆ v :: (A ++ B) := by
  have hp : (A ++ (B ++ [v])).Perm (v :: (A ++ B)) := by
    rw [← List.append_assoc]
    exact List.perm_append_singleton v (A ++ B)
  exact ⟨hp.nodup_iff.mpr hnd, hp.subset⟩

theorem mids_eraseP (l : List MessageOut) (v : Nat)
    (hnd : (mids l).Nodup) :
    (mids (l.eraseP (fun x => x.mid == v))).Sublist (mids l) ∧
      v ∉ mids (l.eraseP (fun x => x.mid == v)) := by
  induction l with
  | nil => exact ⟨List.Sublist.refl _, by simp [mids]⟩
  | cons x t ih =>
    rw [List.eraseP_cons]
    rw [mids_cons, List.nodup_cons] at hnd
    by_cases hx : x.mid = v
    · have hb : (x.mid == v) = true := by simpa using hx
      simp only [hb, cond_true]
      refine ⟨?_, ?_⟩
      · rw [mids_cons]
        exact List.Sublist.cons x.mid (List.Sublist.refl _)
      · rw [← hx]
        exact hnd.1
    · have hb : (x.mid == v) = false := by simpa using hx
      simp only [hb, cond_false]
      obtain ⟨hs, hv⟩ := ih hnd.2
      refine ⟨?_, ?_⟩
      · rw [mids_cons, mids_cons]
        exact List.Sublist.cons₂ x.mid hs
      · rw [mids_cons]
        simp only [List.mem_cons, not_or]
        exact ⟨fun h => hx h.symm, hv⟩

theorem mids_map_replace (l : List MessageOut) (v : Nat) (m' : MessageOut)
    (hm : m'.mid = v) :
    mids (l.map (fun x => if x.mid = v then m' else x)) = mids l := by
  unfold mids
  rw [List.map_map]
  apply List.map_congr_left
  intro a _
  by_cases ha : a.mid = v
  · simp [ha, hm]
  · simp [ha]

theorem writeLoop_mids (ob ib : List MessageOut) (s : Nat) :
    (mids ob ++ mids ib).Nodup →
      ((mids (writeLoop ob ib s).outbox ++
          mids (writeLoop ob ib s).icebox).Nodup ∧
        (mids (writeLoop ob ib s).outbox ++
          mids (writeLoop ob ib s).icebox) ⊆ (mids ob ++ mids ib)) := by
  induction ob, ib, s using writeLoop.induct with
  | case1 ib s hs =>
    intro hnd
    rw [writeLoop_nil]
    exact ⟨hnd, fun a ha => ha⟩
  | case3 ob ib s hs =>
    intro hnd
    unfold writeLoop
    rw [dif_neg hs]
    exact ⟨hnd, fun a ha => ha⟩
  | case2 ib s hs msg rest pf next ih =>
    intro hnd
    unfold pf next at ih
    have hnd' : (msg.mid :: (mids rest ++ mids ib)).Nodup := by
      rw [mids_cons] at hnd
      simpa using hnd
    unfold writeLoop
    rw [dif_pos hs]
    by_cases hmc : (produceFrame msg rest).1.flags &&& kMoreComing ≠ 0
    · by_cases hna : (produceFrame msg rest).2.needsAck = true
      · -- freeze: next queues are (rest, ib ++ [pf.2])
        simp only [if_pos hmc, if_pos hna, dif_pos hmc, dif_pos hna] at ih ⊢
        have hfr := @nodup_shuffle_freeze (mids rest) (mids ib)
          msg.mid hnd'
        have hpre : (mids rest ++ mids (ib ++ [(produceFrame msg rest).2])).Nodup ∧
            (mids rest ++ mids (ib ++ [(produceFrame msg rest).2])) ⊆
              msg.mid :: (mids rest ++ mids ib) := by
          rw [mids_append, mids_cons, produceFrame_mid]
          exact ⟨hfr.1, hfr.2⟩
        obtain ⟨hn2, hsub2⟩ := ih hpre.1
        refine ⟨hn2, fun a ha => ?_⟩
        have := hpre.2 (hsub2 ha)
        rw [mids_cons]
        simpa using this
      · -- requeue: next queues are (requeue rest pf.2, ib)
        simp only [if_pos hmc, if_neg hna, dif_pos hmc, dif_neg hna] at ih ⊢
        have hperm : (mids (requeue rest (produceFrame msg rest).2) ++
            mids ib).Perm (msg.mid :: (mids rest ++ mids ib)) := by
          have h1 : (mids (requeue rest (produceFrame msg rest).2)).Perm
              (msg.mid :: mids rest) := by
            have := (requeue_perm rest (produceFrame msg rest).2).map
              MessageOut.mid
            simpa [mids, produceFrame_mid] using this
          have h2 := h1.append_right (mids ib)
          simpa using h2
        have hpre : (mids (requeue rest (produceFrame msg rest).2) ++
            mids ib).Nodup :=
          hperm.nodup_iff.mpr hnd'
        obtain ⟨hn2, hsub2⟩ := ih hpre
        refine ⟨hn2, fun a ha => ?_⟩
        have := hperm.subset (hsub2 ha)
        rw [mids_cons]
        simpa using this
    · -- final frame: next queues are (rest, ib)
      simp only [if_neg hmc, dif_neg hmc] at ih ⊢
      have hpre : (mids rest ++ mids ib).Nodup :=
        (List.nodup_cons.mp hnd').2
      obtain ⟨hn2, hsub2⟩ := ih hpre
      refine ⟨hn2, fun a ha => ?_⟩
      have := hsub2 ha
      rw [mids_cons]
      simp only [List.cons_append, List.mem_cons]
      right
      simpa using this

theorem step_mids (st : BLIPState) (e : Event)
    (hnd : (mids st.outbox ++ mids st.icebox).Nodup)
    (hlt : ∀ v ∈ mids st.outbox ++ mids st.icebox, v < st.nextMid) :
    ((mids (step st e).1.outbox ++ mids (step st e).1.icebox).Nodup) ∧
    (∀ v ∈ mids (step st e).1.outbox ++ mids (step st e).1.icebox,
      v < (step st e).1.nextMid) := by
  cases e with
  | close => exact ⟨hnd, hlt⟩
  | closed =>
    simp only [step, stepClosed]
    split
    · simp [mids]
    · exact ⟨hnd, hlt⟩
  | writeable =>
    simp only [step, stepWriteable]
    obtain ⟨h1, h2⟩ := writeLoop_mids st.outbox st.icebox 0 hnd
    exact ⟨h1, fun v hv => hlt v (h2 hv)⟩
  | queueMessage m =>
    simp only [step, stepQueueMessage]
    by_cases hws : (!st.webSocketOpen) = true
    · rw [if_pos hws]
      exact ⟨hnd, hlt⟩
    · rw [if_neg hws]
      have key : ∀ a : MessageOut, a.mid = st.nextMid →
          ((mids (writeLoop (requeue st.outbox a) st.icebox
              st.sentBytes).outbox ++
            mids (writeLoop (requeue st.outbox a) st.icebox
              st.sentBytes).icebox).Nodup ∧
          (∀ v ∈ mids (writeLoop (requeue st.outbox a) st.icebox
              st.sentBytes).outbox ++
            mids (writeLoop (requeue st.outbox a) st.icebox
              st.sentBytes).icebox, v < st.nextMid + 1)) := by
        intro a ha
        have hperm : (mids (requeue st.outbox a) ++ mids st.icebox).Perm
            (a.mid :: (mids st.outbox ++ mids st.icebox)) := by
          have h1 := (requeue_perm st.outbox a).map MessageOut.mid
          have h2 := h1.append_right (mids st.icebox)
          simpa [mids] using h2
        have hnotin : a.mid ∉ mids st.outbox ++ mids st.icebox := by
          intro hmem
          have := hlt _ hmem
          omega
        have hndq : (mids (requeue st.outbox a) ++ mids st.icebox).Nodup :=
          hperm.nodup_iff.mpr (List.nodup_cons.mpr ⟨hnotin, hnd⟩)
        obtain ⟨h1, h2⟩ := writeLoop_mids _ _ st.sentBytes hndq
        refine ⟨h1, fun v hv => ?_⟩
        have hmem := hperm.subset (h2 hv)
        rcases List.mem_cons.mp hmem with hv' | hv'
        · omega
        · have := hlt _ hv'
          omega
      exact key _ (by split <;> rfl)
  | ackReceived msgNo onResponse body =>
    simp only [step, stepAck]
    split
    next m hfo =>
      split
      next hub => exact ⟨hnd, hlt⟩
      next bc hub =>
        have hmm := mids_map_replace st.outbox m.mid (m.receivedAck bc)
          (receivedAck_mid m bc)
        constructor
        · rw [hmm]
          exact hnd
        · intro v hv
          rw [hmm] at hv
          exact hlt v hv
    next hfo =>
      split
      next hfi => exact ⟨hnd, hlt⟩
      next m hfi =>
        split
        next hub => exact ⟨hnd, hlt⟩
        next bc hub =>
          split
          next hna =>
            have hmm := mids_map_replace st.icebox m.mid (m.receivedAck bc)
              (receivedAck_mid m bc)
            constructor
            · rw [hmm]
              exact hnd
            · intro v hv
              rw [hmm] at hv
              exact hlt v hv
          next hna =>
            have hmem : m ∈ st.icebox :=
              List.mem_of_find?_eq_some hfi
            have hmidmem : m.mid ∈ mids st.icebox :=
              List.mem_map_of_mem MessageOut.mid hmem
            have hndI : (mids st.icebox).Nodup := hnd.of_append_right
            obtain ⟨hsub, hnotin⟩ := mids_eraseP st.icebox m.mid hndI
            have hnotob : m.mid ∉ mids st.outbox :=
              fun h => (List.disjoint_of_nodup_append hnd) h hmidmem
            have hnd2 : (mids st.outbox ++
                mids (st.icebox.eraseP (fun x => x.mid == m.mid))).Nodup :=
              (((List.append_sublist_append_left
                (mids st.outbox)).mpr hsub)).nodup hnd
            have hperm : (mids (requeue st.outbox (m.receivedAck bc)) ++
                mids (st.icebox.eraseP (fun x => x.mid == m.mid))).Perm
                (m.mid :: (mids st.outbox ++
                  mids (st.icebox.eraseP (fun x => x.mid == m.mid)))) := by
              have h1 := (requeue_perm st.outbox (m.receivedAck bc)).map
                MessageOut.mid
              have h2 := h1.append_right
                (mids (st.icebox.eraseP (fun x => x.mid == m.mid)))
              simpa [mids] using h2
            have hnotq : m.mid ∉ mids st.outbox ++
                mids (st.icebox.eraseP (fun x => x.mid == m.mid)) := by
              intro hm
              rcases List.mem_append.mp hm with h | h
              · exact hnotob h
              · exact hnotin h
            have hndq := hperm.nodup_iff.mpr
              (List.nodup_cons.mpr ⟨hnotq, hnd2⟩)
            obtain ⟨h1, h2⟩ := writeLoop_mids _ _ st.sentBytes hndq
            refine ⟨h1, fun v hv => ?_⟩
            have hmem2 := hperm.subset (h2 hv)
            rcases List.mem_cons.mp hmem2 with hv' | hv'
            · subst hv'
              exact hlt _ (List.mem_append.mpr (Or.inr hmidmem))
            · rcases List.mem_append.mp hv' with h | h
              · exact hlt _ (List.mem_append.mpr (Or.inl h))
              · exact hlt _ (List.mem_append.mpr
                  (Or.inr (hsub.subset h)))

theorem run_mids (events : List Event) : ∀ st : BLIPState,
    (mids st.outbox ++ mids st.icebox).Nodup →
    (∀ v ∈ mids st.outbox ++ mids st.icebox, v < st.nextMid) →
    ((mids (run st events).1.outbox ++
        mids (run st events).1.icebox).Nodup ∧
      ∀ v ∈ mids (run st events).1.outbox ++
        mids (run st events).1.icebox, v < (run st events).1.nextMid) := by
  induction events with
  | nil =>
    intro st h1 h2
    exact ⟨h1, h2⟩
  | cons e es ih =>
    intro st h1 h2
    obtain ⟨h1', h2'⟩ := step_mids st e h1 h2
    simp only [run]
    exact ih (step st e).1 h1' h2'

/-- C9: at every point in the BLIPIO actor's execution (every state
reachable from the initial state by mailbox events), no `MessageOut` is
simultaneously in `_outbox` and `_icebox`: the two queues hold disjoint
sets of message identities.  (`requeue` inserts only messages absent
from `_outbox`, `freezeMessage` moves a message into `_icebox` only when
it is in neither queue, and `thawMessage` removes a message from
`_icebox` before requeuing it — the proof tracks exactly these moves.) -/
theorem c9_outbox_icebox_disjoint (events : List Event) :
    ((mids (run initialState events).1.outbox).all
      (fun v =>
        !((mids (run initialState events).1.icebox).contains v))) = true := by
  obtain ⟨hnd, _⟩ := run_mids events initialState
    (by simp [initialState, mids]) (by simp [initialState, mids])
  rw [List.all_eq_true]
  intro v hv
  have hdisj := List.disjoint_of_nodup_append hnd
  have hni := hdisj hv
  simpa using hni

/-! ## C10: a reply builder is a Response and inherits Urgent -/

/-- C10: for every `MessageBuilder` constructed as a reply to an incoming
request (`MessageBuilder(inReplyTo)`), the built message's type is
Response and its Urgent flag equals the Urgent flag of the request being
replied to. -/
theorem c10_reply_builder (m : MessageIn) (h : m.isResponse = false) :
    (MessageBuilder.mkReply m).flags &&& kTypeMask = kResponseType ∧
    ((MessageBuilder.mkReply m).flags &&& kUrgent != 0) = m.urgent := by
  cases hu : m.urgent <;>
    simp [MessageBuilder.mkReply, MessageBuilder.flags, hu, kTypeMask,
      kResponseType, kUrgent] <;> decide

/-- Witness for C10 at a concrete input: a reply to the urgent incoming
request number 5. -/
theorem c10_witness :
    (MessageIn.isResponse { number := 5, flags := 16 } = false) ∧
    ((MessageBuilder.mkReply { number := 5, flags := 16 }).flags &&&
        kTypeMask = kResponseType ∧
      ((MessageBuilder.mkReply { number := 5, flags := 16 }).flags &&&
        kUrgent != 0) = MessageIn.urgent { number := 5, flags := 16 }) :=
  ⟨by decide, c10_reply_builder { number := 5, flags := 16 } (by decide)⟩

end Blip
